import Mathlib

/-!
Verification of the resilient HTTP client engine (`src/lib/http.ts`).

The engine is shallowly embedded: the HTTP transport (`fetch`), the random
source (`Math.random`), and the UUID generator (`randomUUID`) are injected
parameters; JavaScript `Headers` objects are association lists with
lowercased names; the attempt loop is a structurally recursive function
driven by a fuel argument equal to the remaining loop iterations, threading
an explicit run state that records fetch calls, timer set/clear events,
backoff sleeps, and whether the post-loop fallback branch executed.
-/

/-- JS record object `Record<string, string>`: insertion-ordered map with
unique case-sensitive keys. -/
abbrev HeadersRecord := List (String × String)

/-- A JS `Headers` object: association list whose names are stored
lowercased (the `Headers` class normalizes header names). -/
abbrev HeadersL := List (String × String)

/-- Lowercase a string (header-name normalization), character by
character. -/
def strToLower (s : String) : String := String.mk (s.toList.map Char.toLower)

/-- `headers.has(name)` (case-insensitive). -/
def headersHas (hs : HeadersL) (name : String) : Bool :=
  hs.any (fun p => p.1 == strToLower name)

/-- `headers.get(name)` (case-insensitive; `none` models `null`). -/
def headersGet (hs : HeadersL) (name : String) : Option String :=
  (hs.find? (fun p => p.1 == strToLower name)).map (fun p => p.2)

/-- `headers.set(name, value)`: replace every entry with this (lowercased)
name by the new value, or append when absent. -/
def headersSet (hs : HeadersL) (name value : String) : HeadersL :=
  let n := strToLower name
  if hs.any (fun p => p.1 == n) then
    hs.map (fun p => if p.1 == n then (n, value) else p)
  else
    hs ++ [(n, value)]

/-- `headers.append(name, value)`: combine with an existing value using
`", "`, or append when absent.  `new Headers(record)` appends each entry. -/
def headersAppend (hs : HeadersL) (name value : String) : HeadersL :=
  let n := strToLower name
  if hs.any (fun p => p.1 == n) then
    hs.map (fun p => if p.1 == n then (p.1, p.2 ++ ", " ++ value) else p)
  else
    hs ++ [(n, value)]

/-- `new Headers(record)`. -/
def headersFromRecord (r : HeadersRecord) : HeadersL :=
  r.foldl (fun hs kv => headersAppend hs kv.1 kv.2) []

/-- Insert/overwrite one key of a JS record object (case-sensitive keys,
later assignment wins, insertion order kept). -/
def recordSet (r : HeadersRecord) (k v : String) : HeadersRecord :=
  if r.any (fun p => p.1 == k) then
    r.map (fun p => if p.1 == k then (k, v) else p)
  else
    r ++ [(k, v)]

/-- JS object spread `{ ...a, ...b }`. -/
def mergeRecords (a b : HeadersRecord) : HeadersRecord :=
  b.foldl (fun acc kv => recordSet acc kv.1 kv.2) a

/-- `s.includes(sub)` on strings. -/
def strIncludes (s sub : String) : Bool :=
  (s.toList.tails).any (fun t => sub.toList.isPrefixOf t)

/-- `s.startsWith(pre)` on strings (list-level prefix test). -/
def strStartsWith (s pre : String) : Bool :=
  pre.toList.isPrefixOf s.toList

/-- A JavaScript value, as far as the client manipulates them: `undefined`,
`null`, booleans, (integral) numbers, strings, arrays and objects. -/
inductive JsValue where
  | undef : JsValue
  | null : JsValue
  | bool (b : Bool) : JsValue
  | num (n : Int) : JsValue
  | str (s : String) : JsValue
  | arr (xs : List JsValue) : JsValue
  | obj (kvs : List (String × JsValue)) : JsValue

/-- JSON string escaping (quotes and backslashes; other characters kept). -/
def escapeJsonChar (c : Char) : String :=
  if c == '"' then "\\\"" else if c == '\\' then "\\\\" else String.singleton c

def escapeJsonString (s : String) : String :=
  "\"" ++ String.join (s.toList.map escapeJsonChar) ++ "\""

mutual

/-- `JSON.stringify` (an `undefined` nested value serializes like `null`;
the top-level `undefined` case is excluded by the caller's guard). -/
def JsValue.stringify : JsValue → String
  | .undef => "null"
  | .null => "null"
  | .bool b => if b then "true" else "false"
  | .num n => toString n
  | .str s => escapeJsonString s
  | .arr xs => "[" ++ String.intercalate "," (stringifyList xs) ++ "]"
  | .obj kvs => "\x7b" ++ String.intercalate "," (stringifyObj kvs) ++ "\x7d"

def stringifyList : List JsValue → List String
  | [] => []
  | x :: xs => x.stringify :: stringifyList xs

def stringifyObj : List (String × JsValue) → List String
  | [] => []
  | kv :: kvs => (escapeJsonString kv.1 ++ ":" ++ kv.2.stringify) :: stringifyObj kvs

end

/-- A query value `string | number | boolean`. -/
inductive QueryVal where
  | s (v : String)
  | n (v : Int)
  | b (v : Bool)
deriving DecidableEq

/-- JS `String(value)` for query values. -/
def QueryVal.toStr : QueryVal → String
  | .s v => v
  | .n v => toString v
  | .b v => if v then "true" else "false"

/-- Hex digit (uppercase) for percent-encoding. -/
def hexDigit (n : Nat) : Char :=
  if n < 10 then Char.ofNat ('0'.toNat + n) else Char.ofNat ('A'.toNat + (n - 10))

def hexByte (b : UInt8) : String :=
  String.mk ['%', hexDigit (b.toNat / 16), hexDigit (b.toNat % 16)]

/-- `application/x-www-form-urlencoded` encoding of one character, as done
by `URLSearchParams.toString`. -/
def formEncodeChar (ch : Char) : String :=
  if ch.isAlphanum || ch == '*' || ch == '-' || ch == '.' || ch == '_' then
    String.singleton ch
  else if ch == ' ' then "+"
  else String.join (((String.singleton ch).toUTF8.toList).map hexByte)

def formEncode (s : String) : String :=
  String.join (s.toList.map formEncodeChar)

/-- `URLSearchParams.toString()` over appended `(key, value)` pairs. -/
def serializeParams (ps : List (String × String)) : String :=
  String.intercalate "&" (ps.map (fun kv => formEncode kv.1 ++ "=" ++ formEncode kv.2))

/-- `baseUrl.replace(/\/+$/, "")`: drop every trailing slash. -/
def stripTrailingSlashes (s : String) : String :=
  String.mk ((s.toList.reverse.dropWhile (fun c => c = '/')).reverse)

/-- The engine after construction (`HttpClient`'s private fields), viewed as
a value snapshot. -/
structure HttpClient where
  baseUrl : String
  defaultHeaders : HeadersRecord
  retries : Int
  retryStatuses : List Nat
  defaultTimeoutMs : Nat
deriving DecidableEq

/-- `HTTPClientOptions` with its optional fields. -/
structure HTTPClientOptions where
  baseUrl : String
  defaultHeaders : Option HeadersRecord := none
  retries : Option Int := none
  retryStatuses : Option (List Nat) := none
  defaultTimeoutMs : Option Nat := none

/-- The constructor (lines 47-59): apply the declared defaults, strip
trailing slashes from `baseUrl`, keep the retry statuses as a set snapshot
(`new Set(retryStatuses)`). -/
def HttpClient.ofOptions (o : HTTPClientOptions) : HttpClient :=
  { baseUrl := stripTrailingSlashes o.baseUrl
  , defaultHeaders := o.defaultHeaders.getD []
  , retries := o.retries.getD 2
  , retryStatuses := o.retryStatuses.getD [408, 429, 502, 503, 504]
  , defaultTimeoutMs := o.defaultTimeoutMs.getD 5000 }

/-- `RequestInitEx`. `authToken`'s `none` covers both `undefined` and
`null` (both falsy, both meaning "no token"). -/
structure RequestInitEx where
  headers : Option HeadersRecord := none
  query : Option (List (String × Option QueryVal)) := none
  json : Option JsValue := none
  timeoutMs : Option Nat := none
  authToken : Option String := none
  cache : Option String := none

/-- JS truthiness of an optional string (empty string and null/undefined
are falsy). -/
def truthyStr : Option String → Bool
  | some t => !(t == "")
  | none => false

/-- A success payload `{ data, status, headers }` (`HttpResponse<T>`). -/
structure HttpResponseV where
  data : JsValue
  status : Nat
  headers : HeadersL

/-- An `HTTPError`: message, optional status, optional attached response. -/
structure HTTPError where
  message : String
  status : Option Nat := none
  response : Option HttpResponseV := none

/-- Any other JavaScript error value the transport or parser can produce,
described by the fields the client inspects: its `name`, an optional
numeric `status` property, whether it is a `TypeError`, and whether it is
an `instanceof Error`. -/
structure JsError where
  name : String
  status : Option Nat := none
  isTypeError : Bool := false
  isError : Bool := true
deriving DecidableEq

/-- A caught exception: either the client's own `HTTPError` or some other
JS error. -/
inductive Caught where
  | http (e : HTTPError)
  | js (e : JsError)

def Caught.name : Caught → String
  | .http _ => "HTTPError"
  | .js e => e.name

def Caught.status : Caught → Option Nat
  | .http e => e.status
  | .js e => e.status

def Caught.isTypeError : Caught → Bool
  | .http _ => false
  | .js e => e.isTypeError

/-- `x instanceof Error` (an `HTTPError` extends `Error`). -/
def Caught.instanceOfError : Caught → Bool
  | .http _ => true
  | .js e => e.isError

/-- A completed HTTP exchange as the client observes it: status, status
text, headers, and the results the body methods would yield. -/
structure Resp where
  status : Nat
  statusText : String
  headers : HeadersL
  jsonResult : Except JsError JsValue
  textBody : String

/-- `response.ok`: status in the inclusive range 200..299. -/
def Resp.ok (r : Resp) : Bool :=
  decide (200 ≤ r.status) && decide (r.status ≤ 299)

/-- What one `fetch` call does: either a completed exchange or a rejection
(timeout abort, network fault, ...). -/
inductive AttemptOutcome where
  | response (r : Resp)
  | fault (e : JsError)

/-- `parseResponse` (lines 161-166): 204 yields `undefined`; a JSON content
type triggers `response.json()`; otherwise `response.text()`. -/
def parseResponse (r : Resp) : Except JsError JsValue :=
  let contentType := (headersGet r.headers "content-type").getD ""
  if r.status == 204 then .ok .undef
  else if strIncludes contentType "application/json" then r.jsonResult
  else .ok (.str r.textBody)

/-- `isNetworkError` (lines 185-187). -/
def isNetworkError (error : Caught) : Bool :=
  error.isTypeError || error.name == "FetchError"

/-- `shouldRetry` (lines 168-170). -/
def HttpClient.shouldRetry (c : HttpClient) (status : Nat) (attempt maxAttempts : Nat) : Bool :=
  c.retryStatuses.contains status && decide (attempt < maxAttempts - 1)

/-- `shouldRetryError` (lines 172-175). -/
def shouldRetryError (error : Caught) (attempt maxAttempts : Nat) : Bool :=
  let isAbortError := error.name == "AbortError" || error.status == some 408
  decide (attempt < maxAttempts - 1) && (isAbortError || isNetworkError error)

/-- The randomized backoff delay (lines 177-183): `maxDelay = min(cap,
base * 2 ** attempt)`, `delay = Math.floor(random * (maxDelay + 1))`, the
random sample being a real in `[0, 1)` modelled as a rational. -/
def backoffDelay (attempt : Nat) (r : ℚ) : ℤ :=
  let base : ℚ := 300
  let cap : ℚ := 4000
  let maxDelay := min cap (base * 2 ^ attempt)
  Int.floor (r * (maxDelay + 1))

/-- `buildUrl` (lines 131-141).  `new URL(...).toString()` is modelled as
plain concatenation, valid when the normalized base is already a
well-formed absolute URL and the path needs no normalization; an absent
key in the query record is `undefined` (`none`) and is omitted;
`url.search = params.toString()` contributes `"?" ++ search` exactly when
the serialized parameters are nonempty. -/
def HttpClient.buildUrl (c : HttpClient) (path : String)
    (query : Option (List (String × Option QueryVal))) : String :=
  let href := c.baseUrl ++ (if strStartsWith path "/" then path else "/" ++ path)
  match query with
  | none => href
  | some q =>
    let pairs := q.foldl (fun acc kv =>
      match kv.2 with
      | some v => acc ++ [(kv.1, v.toStr)]
      | none => acc) []
    let search := serializeParams pairs
    if search == "" then href else href ++ "?" ++ search

/-- `buildHeaders` (lines 143-159): spread defaults then per-call headers
into a `Headers` object; synthesize `x-request-id` when missing (the
injected `uuid` models `randomUUID()`); set `Authorization` when the token
is truthy; set `Content-Type` when a JSON body is present and none is set. -/
def HttpClient.buildHeaders (c : HttpClient) (init : RequestInitEx) (uuid : String) : HeadersL :=
  let h0 := headersFromRecord (mergeRecords c.defaultHeaders (init.headers.getD []))
  let h1 := if !headersHas h0 "x-request-id" then headersSet h0 "x-request-id" uuid else h0
  let h2 := if truthyStr init.authToken then
      headersSet h1 "Authorization" ("Bearer " ++ init.authToken.getD "") else h1
  let h3 := if init.json.isSome && !headersHas h2 "Content-Type" then
      headersSet h2 "Content-Type" "application/json" else h2
  h3

/-- The `HTTPError` built at line 108 from a completed non-ok exchange. -/
def httpStatusError (r : Resp) (data : JsValue) : HTTPError :=
  { message := "HTTP " ++ toString r.status ++ " " ++ r.statusText
  , status := some r.status
  , response := some ⟨data, r.status, r.headers⟩ }

/-- Line 122: `throw error instanceof Error ? error : new HTTPError("Unknown HTTP error")`. -/
def wrapThrow (e : Caught) : Caught :=
  if e.instanceOfError then e else .http { message := "Unknown HTTP error" }

/-- Line 128: `throw lastError instanceof Error ? lastError : new HTTPError("Request failed")`
(an unset `lastError` is `undefined`, which is not an `instanceof Error`). -/
def fallbackThrow : Option Caught → Caught
  | some e => if e.instanceOfError then e else .http { message := "Request failed" }
  | none => .http { message := "Request failed" }

/-- What one loop iteration decides: return a success, throw terminally, or
continue to the next attempt (either from the status-retry check, which
leaves `lastError` alone, or from the catch block, which records it). -/
inductive StepRes where
  | ret (r : HttpResponseV)
  | thrw (e : Caught)
  | retryStatus
  | retryError (e : Caught)

/-- The catch block (lines 116-122): record the error, retry when
`shouldRetryError` allows, otherwise throw (wrapping non-`Error` values). -/
def catchStep (error : Caught) (attempt maxAttempts : Nat) : StepRes :=
  if shouldRetryError error attempt maxAttempts then .retryError error
  else .thrw (wrapThrow error)

/-- The body of one attempt (lines 92-122): on a completed exchange, check
status-retry first, then parse, then the ok check (a thrown `HTTPError`
lands in the same catch block); a rejected exchange goes straight to the
catch block. -/
def attemptStep (c : HttpClient) (tr : Nat → AttemptOutcome) (attempt maxAttempts : Nat) : StepRes :=
  match tr attempt with
  | .response r =>
    if c.shouldRetry r.status attempt maxAttempts then .retryStatus
    else
      match parseResponse r with
      | .ok data =>
        if !r.ok then catchStep (.http (httpStatusError r data)) attempt maxAttempts
        else .ret ⟨data, r.status, r.headers⟩
      | .error e => catchStep (.js e) attempt maxAttempts
  | .fault e => catchStep (.js e) attempt maxAttempts

/-- IsRetryStep: the iteration ended in `continue`. -/
def IsRetryStep : StepRes → Prop
  | .retryStatus => True
  | .retryError _ => True
  | .ret _ => False
  | .thrw _ => False

/-- The arguments passed to `fetch` (line 93), computed once per call. -/
structure FetchArgs where
  method : String
  url : String
  headers : HeadersL
  body : Option String
  cache : Option String

/-- One recorded `fetch` invocation. -/
structure FetchCall where
  attempt : Nat
  method : String
  url : String
  headers : HeadersL
  body : Option String
  cache : Option String
deriving DecidableEq

def mkFetchCall (attempt : Nat) (args : FetchArgs) : FetchCall :=
  ⟨attempt, args.method, args.url, args.headers, args.body, args.cache⟩

/-- Observable events of one run: the fetch calls issued, the timers armed
(line 90) and released (the `finally` at line 124), the backoff sleeps, and
whether the post-loop fallback (line 128) executed. -/
structure RunState where
  fetchCalls : List FetchCall := []
  attemptsStarted : Nat := 0
  timersSet : Nat := 0
  timersCleared : Nat := 0
  backoffs : List (Nat × ℤ) := []
  usedFallback : Bool := false

/-- The outcome of a call: resolve with a response or reject with an error. -/
inductive RequestOutcome where
  | success (r : HttpResponseV)
  | thrown (e : Caught)

/-- The attempt loop (lines 88-128).  `fuel` counts the remaining loop
iterations (the caller starts it at `maxAttempts`, and it stays equal to
`maxAttempts - attempt`); the loop guard `attempt < maxAttempts` is kept as
in the source.  Each iteration arms one timer and records one fetch call;
every exit shape of the iteration — return, throw, status-retry continue,
catch-retry continue — releases the timer exactly once, mirroring the
`finally` block. -/
def requestLoop (c : HttpClient) (args : FetchArgs) (tr : Nat → AttemptOutcome)
    (rng : Nat → ℚ) (maxAttempts : Nat) :
    Nat → Nat → Option Caught → RunState → RunState × RequestOutcome
  | 0, _, lastError, st =>
    ({ st with usedFallback := true }, .thrown (fallbackThrow lastError))
  | fuel + 1, attempt, lastError, st =>
    if attempt < maxAttempts then
      let st1 := { st with
        attemptsStarted := st.attemptsStarted + 1,
        timersSet := st.timersSet + 1,
        fetchCalls := st.fetchCalls ++ [mkFetchCall attempt args] }
      match attemptStep c tr attempt maxAttempts with
      | .ret r => ({ st1 with timersCleared := st1.timersCleared + 1 }, .success r)
      | .thrw e => ({ st1 with timersCleared := st1.timersCleared + 1 }, .thrown e)
      | .retryStatus =>
        requestLoop c args tr rng maxAttempts fuel (attempt + 1) lastError
          { st1 with
            backoffs := st1.backoffs ++ [(attempt, backoffDelay attempt (rng attempt))],
            timersCleared := st1.timersCleared + 1 }
      | .retryError e =>
        requestLoop c args tr rng maxAttempts fuel (attempt + 1) (some e)
          { st1 with
            backoffs := st1.backoffs ++ [(attempt, backoffDelay attempt (rng attempt))],
            timersCleared := st1.timersCleared + 1 }
    else
      ({ st with usedFallback := true }, .thrown (fallbackThrow lastError))

/-- `maxAttempts = Math.max(1, this.retries + 1)` (line 85). -/
def HttpClient.maxAttemptsNat (c : HttpClient) : Nat :=
  (max 1 (c.retries + 1)).toNat

/-- `request` (lines 81-129): compute the URL, the headers and the
serialized body once, then run the attempt loop from attempt 0 with no
recorded error and a fresh run state. -/
def HttpClient.request (c : HttpClient) (method path : String) (init : RequestInitEx)
    (tr : Nat → AttemptOutcome) (rng : Nat → ℚ) (uuid : String) :
    RunState × RequestOutcome :=
  let url := c.buildUrl path init.query
  let headers := c.buildHeaders init uuid
  let body := init.json.map JsValue.stringify
  let maxAttempts := c.maxAttemptsNat
  requestLoop c ⟨method, url, headers, body, init.cache⟩ tr rng maxAttempts maxAttempts 0 none {}

/-- The verb shorthands (lines 61-79) all forward to `request`. -/
def HttpClient.get (c : HttpClient) (path : String) (init : RequestInitEx)
    (tr : Nat → AttemptOutcome) (rng : Nat → ℚ) (uuid : String) :=
  c.request "GET" path init tr rng uuid

def HttpClient.post (c : HttpClient) (path : String) (init : RequestInitEx)
    (tr : Nat → AttemptOutcome) (rng : Nat → ℚ) (uuid : String) :=
  c.request "POST" path init tr rng uuid

def HttpClient.put (c : HttpClient) (path : String) (init : RequestInitEx)
    (tr : Nat → AttemptOutcome) (rng : Nat → ℚ) (uuid : String) :=
  c.request "PUT" path init tr rng uuid

def HttpClient.patch (c : HttpClient) (path : String) (init : RequestInitEx)
    (tr : Nat → AttemptOutcome) (rng : Nat → ℚ) (uuid : String) :=
  c.request "PATCH" path init tr rng uuid

def HttpClient.deleteReq (c : HttpClient) (path : String) (init : RequestInitEx)
    (tr : Nat → AttemptOutcome) (rng : Nat → ℚ) (uuid : String) :=
  c.request "DELETE" path init tr rng uuid

/-! ### Helper lemmas about the retry predicates and the loop -/

theorem shouldRetry_lt {c : HttpClient} {status a m : Nat}
    (h : c.shouldRetry status a m = true) : a < m - 1 := by
  unfold HttpClient.shouldRetry at h
  exact of_decide_eq_true (Bool.and_eq_true .. ▸ h |>.2)

theorem shouldRetryError_lt {e : Caught} {a m : Nat}
    (h : shouldRetryError e a m = true) : a < m - 1 := by
  unfold shouldRetryError at h
  exact of_decide_eq_true ((Bool.and_eq_true _ _).mp h).1

theorem catchStep_retry_lt {e : Caught} {a m : Nat}
    (h : IsRetryStep (catchStep e a m)) : a < m - 1 := by
  unfold catchStep at h
  by_cases hs : shouldRetryError e a m
  · exact shouldRetryError_lt hs
  · rw [if_neg hs] at h
    exact absurd h (by simp [IsRetryStep])

theorem retryStep_lt {c : HttpClient} {tr : Nat → AttemptOutcome} {a m : Nat}
    (h : IsRetryStep (attemptStep c tr a m)) : a < m - 1 := by
  unfold attemptStep at h
  split at h
  · split at h
    · exact shouldRetry_lt ‹_›
    · split at h
      · split at h
        · exact catchStep_retry_lt h
        · exact absurd h (by simp [IsRetryStep])
      · exact catchStep_retry_lt h
  · exact catchStep_retry_lt h

theorem requestLoop_attempts_le (c : HttpClient) (args : FetchArgs)
    (tr : Nat → AttemptOutcome) (rng : Nat → ℚ) (maxAttempts : Nat) :
    ∀ fuel attempt lastError st,
      (requestLoop c args tr rng maxAttempts fuel attempt lastError st).1.attemptsStarted
        ≤ st.attemptsStarted + fuel := by
  intro fuel
  induction fuel with
  | zero =>
    intro attempt lastError st
    simp [requestLoop]
  | succ n ih =>
    intro attempt lastError st
    by_cases hlt : attempt < maxAttempts
    · simp only [requestLoop, if_pos hlt]
      cases hs : attemptStep c tr attempt maxAttempts with
      | ret r => simp
      | thrw e => simp
      | retryStatus =>
        refine le_trans (ih _ _ _) ?_
        simp only []
        omega
      | retryError e =>
        refine le_trans (ih _ _ _) ?_
        simp only []
        omega
    · simp [requestLoop, if_neg hlt]

theorem requestLoop_timers (c : HttpClient) (args : FetchArgs)
    (tr : Nat → AttemptOutcome) (rng : Nat → ℚ) (maxAttempts : Nat) :
    ∀ fuel attempt lastError st,
      st.timersSet = st.timersCleared → st.timersSet = st.attemptsStarted →
      (requestLoop c args tr rng maxAttempts fuel attempt lastError st).1.timersSet
        = (requestLoop c args tr rng maxAttempts fuel attempt lastError st).1.timersCleared ∧
      (requestLoop c args tr rng maxAttempts fuel attempt lastError st).1.timersSet
        = (requestLoop c args tr rng maxAttempts fuel attempt lastError st).1.attemptsStarted := by
  intro fuel
  induction fuel with
  | zero =>
    intro attempt lastError st h1 h2
    simp [requestLoop]
    omega
  | succ n ih =>
    intro attempt lastError st h1 h2
    by_cases hlt : attempt < maxAttempts
    · simp only [requestLoop, if_pos hlt]
      cases hs : attemptStep c tr attempt maxAttempts with
      | ret r => simp; omega
      | thrw e => simp; omega
      | retryStatus => exact ih _ _ _ (by simp; omega) (by simp; omega)
      | retryError e => exact ih _ _ _ (by simp; omega) (by simp; omega)
    · simp only [requestLoop, if_neg hlt]
      exact ⟨h1, h2⟩
theorem requestLoop_noFallback (c : HttpClient) (args : FetchArgs)
    (tr : Nat → AttemptOutcome) (rng : Nat → ℚ) (maxAttempts : Nat) :
    ∀ fuel attempt lastError st,
      fuel = maxAttempts - attempt → attempt < maxAttempts →
      (requestLoop c args tr rng maxAttempts fuel attempt lastError st).1.usedFallback
        = st.usedFallback := by
  intro fuel
  induction fuel with
  | zero =>
    intro attempt lastError st hfuel hlt
    omega
  | succ n ih =>
    intro attempt lastError st hfuel hlt
    simp only [requestLoop, if_pos hlt]
    cases hs : attemptStep c tr attempt maxAttempts with
    | ret r => simp
    | thrw e => simp
    | retryStatus =>
      have hlt2 : attempt < maxAttempts - 1 := retryStep_lt (show IsRetryStep (attemptStep c tr attempt maxAttempts) by rw [hs]; trivial)
      rw [ih _ _ _ (by omega) (by omega)]
    | retryError e =>
      have hlt2 : attempt < maxAttempts - 1 := retryStep_lt (show IsRetryStep (attemptStep c tr attempt maxAttempts) by rw [hs]; trivial)
      rw [ih _ _ _ (by omega) (by omega)]

theorem requestLoop_fetchCalls_mem (c : HttpClient) (args : FetchArgs)
    (tr : Nat → AttemptOutcome) (rng : Nat → ℚ) (maxAttempts : Nat) :
    ∀ fuel attempt lastError st fc,
      fc ∈ (requestLoop c args tr rng maxAttempts fuel attempt lastError st).1.fetchCalls →
      fc ∈ st.fetchCalls ∨ ∃ a, fc = mkFetchCall a args := by
  intro fuel
  induction fuel with
  | zero =>
    intro attempt lastError st fc h
    simp only [requestLoop] at h
    exact Or.inl h
  | succ n ih =>
    intro attempt lastError st fc h
    by_cases hlt : attempt < maxAttempts
    · simp only [requestLoop, if_pos hlt] at h
      cases hs : attemptStep c tr attempt maxAttempts with
      | ret r =>
        rw [hs] at h
        simp only [List.mem_append, List.mem_singleton] at h
        rcases h with h | h
        · exact Or.inl h
        · exact Or.inr ⟨attempt, h⟩
      | thrw e =>
        rw [hs] at h
        simp only [List.mem_append, List.mem_singleton] at h
        rcases h with h | h
        · exact Or.inl h
        · exact Or.inr ⟨attempt, h⟩
      | retryStatus =>
        rw [hs] at h
        rcases ih _ _ _ _ h with h2 | h2
        · simp only [List.mem_append, List.mem_singleton] at h2
          rcases h2 with h2 | h2
          · exact Or.inl h2
          · exact Or.inr ⟨attempt, h2⟩
        · exact Or.inr h2
      | retryError e =>
        rw [hs] at h
        rcases ih _ _ _ _ h with h2 | h2
        · simp only [List.mem_append, List.mem_singleton] at h2
          rcases h2 with h2 | h2
          · exact Or.inl h2
          · exact Or.inr ⟨attempt, h2⟩
        · exact Or.inr h2
    · simp only [requestLoop, if_neg hlt] at h
      exact Or.inl h
theorem requestLoop_backoffs_mem (c : HttpClient) (args : FetchArgs)
    (tr : Nat → AttemptOutcome) (rng : Nat → ℚ) (maxAttempts : Nat) :
    ∀ fuel attempt lastError st p,
      p ∈ (requestLoop c args tr rng maxAttempts fuel attempt lastError st).1.backoffs →
      p ∈ st.backoffs ∨ p.2 = backoffDelay p.1 (rng p.1) := by
  intro fuel
  induction fuel with
  | zero =>
    intro attempt lastError st p h
    simp only [requestLoop] at h
    exact Or.inl h
  | succ n ih =>
    intro attempt lastError st p h
    by_cases hlt : attempt < maxAttempts
    · simp only [requestLoop, if_pos hlt] at h
      cases hs : attemptStep c tr attempt maxAttempts with
      | ret r =>
        rw [hs] at h
        exact Or.inl h
      | thrw e =>
        rw [hs] at h
        exact Or.inl h
      | retryStatus =>
        rw [hs] at h
        rcases ih _ _ _ _ h with h2 | h2
        · simp only [List.mem_append, List.mem_singleton] at h2
          rcases h2 with h2 | h2
          · exact Or.inl h2
          · subst h2
            exact Or.inr rfl
        · exact Or.inr h2
      | retryError e =>
        rw [hs] at h
        rcases ih _ _ _ _ h with h2 | h2
        · simp only [List.mem_append, List.mem_singleton] at h2
          rcases h2 with h2 | h2
          · exact Or.inl h2
          · subst h2
            exact Or.inr rfl
        · exact Or.inr h2
    · simp only [requestLoop, if_neg hlt] at h
      exact Or.inl h

theorem requestLoop_all_retry_throw (c : HttpClient) (args : FetchArgs)
    (tr : Nat → AttemptOutcome) (rng : Nat → ℚ) (maxAttempts : Nat) (e : Caught) :
    ∀ fuel attempt, fuel = maxAttempts - attempt → attempt < maxAttempts →
    (∀ a, attempt ≤ a → a < maxAttempts - 1 → IsRetryStep (attemptStep c tr a maxAttempts)) →
    attemptStep c tr (maxAttempts - 1) maxAttempts = .thrw e →
    ∀ lastError st,
      (requestLoop c args tr rng maxAttempts fuel attempt lastError st).2 = .thrown e ∧
      (requestLoop c args tr rng maxAttempts fuel attempt lastError st).1.attemptsStarted
        = st.attemptsStarted + (maxAttempts - attempt) := by
  intro fuel
  induction fuel with
  | zero =>
    intro attempt hfuel hlt
    omega
  | succ n ih =>
    intro attempt hfuel hlt hall hlast lastError st
    by_cases hend : attempt = maxAttempts - 1
    · subst hend
      simp only [requestLoop, if_pos hlt, hlast]
      refine ⟨trivial, ?_⟩
      omega
    · have hstep : IsRetryStep (attemptStep c tr attempt maxAttempts) :=
        hall attempt le_rfl (by omega)
      cases hs : attemptStep c tr attempt maxAttempts with
      | ret r =>
        rw [hs] at hstep
        exact absurd hstep (by simp [IsRetryStep])
      | thrw e2 =>
        rw [hs] at hstep
        exact absurd hstep (by simp [IsRetryStep])
      | retryStatus =>
        simp only [requestLoop, if_pos hlt, hs]
        have hrec := ih (attempt + 1) (by omega) (by omega)
          (fun a ha1 ha2 => hall a (by omega) ha2) hlast lastError
          { st with
            attemptsStarted := st.attemptsStarted + 1,
            timersSet := st.timersSet + 1,
            fetchCalls := st.fetchCalls ++ [mkFetchCall attempt args],
            backoffs := st.backoffs ++ [(attempt, backoffDelay attempt (rng attempt))],
            timersCleared := st.timersCleared + 1 }
      
        refine ⟨hrec.1, ?_⟩
        rw [hrec.2]
        simp only []
        omega
      | retryError e2 =>
        simp only [requestLoop, if_pos hlt, hs]
        have hrec := ih (attempt + 1) (by omega) (by omega)
          (fun a ha1 ha2 => hall a (by omega) ha2) hlast (some e2)
          { st with
            attemptsStarted := st.attemptsStarted + 1,
            timersSet := st.timersSet + 1,
            fetchCalls := st.fetchCalls ++ [mkFetchCall attempt args],
            backoffs := st.backoffs ++ [(attempt, backoffDelay attempt (rng attempt))],
            timersCleared := st.timersCleared + 1 }
        refine ⟨hrec.1, ?_⟩
        rw [hrec.2]
        simp only []
        omega
theorem find_map_set (m v : String) :
    ∀ hs : HeadersL,
      List.find? (fun p => p.1 == m) (hs.map (fun p => if p.1 == m then (m, v) else p))
        = if hs.any (fun p => p.1 == m) then some (m, v) else none := by
  intro hs
  induction hs with
  | nil => simp
  | cons p t ih =>
    by_cases hp : p.1 == m
    · simp [hp, List.find?]
    · simp only [List.map_cons, List.find?, List.any_cons]
      rw [if_neg (by simpa using hp)]
      simp only [hp, Bool.false_or]
      simpa using ih

theorem find_map_set_other (m m2 v : String) (hne : m2 ≠ m) :
    ∀ hs : HeadersL,
      List.find? (fun p => p.1 == m2) (hs.map (fun p => if p.1 == m then (m, v) else p))
        = List.find? (fun p => p.1 == m2) hs := by
  intro hs
  induction hs with
  | nil => simp
  | cons p t ih =>
    by_cases hp : p.1 == m
    · have hpm : p.1 = m := by simpa using hp
      have h2 : ¬ (m == m2) := by simpa using (Ne.symm hne)
      have h3 : ¬ (p.1 == m2) := by simp [hpm]; simpa using (Ne.symm hne)
      simp only [List.map_cons, if_pos hp, List.find?]
      rw [show ((m, v).1 == m2) = false from by simpa using (Ne.symm hne)]
      rw [show (p.1 == m2) = false from by simpa using h3]
      exact ih
    · simp only [List.map_cons, if_neg hp, List.find?]
      cases hq : (p.1 == m2) with
      | true => rfl
      | false => exact ih

theorem headersGet_set_self (hs : HeadersL) (n v : String) :
    headersGet (headersSet hs n v) n = some v := by
  unfold headersGet headersSet
  by_cases ha : hs.any (fun p => p.1 == strToLower n)
  · rw [if_pos ha, find_map_set, if_pos ha]
    rfl
  · rw [if_neg ha, List.find?_append]
    rw [show List.find? (fun p => p.1 == strToLower n) hs = none from by
      simp only [List.find?_eq_none]
      intro x hx
      simp only [List.any_eq_true, not_exists, not_and] at ha
      have := ha x hx
      simpa using this]
    simp [List.find?]

theorem headersGet_set_other (hs : HeadersL) (n v n2 : String)
    (hne : strToLower n2 ≠ strToLower n) :
    headersGet (headersSet hs n v) n2 = headersGet hs n2 := by
  unfold headersGet headersSet
  by_cases ha : hs.any (fun p => p.1 == strToLower n)
  · rw [if_pos ha, find_map_set_other _ _ _ hne]
  · rw [if_neg ha, List.find?_append]
    rw [show List.find? (fun p => p.1 == strToLower n2) [(strToLower n, v)] = none from by
      have hf : (strToLower n == strToLower n2) = false := by simpa using (Ne.symm hne)
      simp [List.find?, hf]]
    cases List.find? (fun p => p.1 == strToLower n2) hs with
    | none => rfl
    | some q => rfl
theorem backoffDelay_bounds (a : Nat) (r : ℚ) (h0 : 0 ≤ r) (h1 : r < 1) :
    0 ≤ backoffDelay a r ∧ backoffDelay a r ≤ min 4000 (300 * 2 ^ a) := by
  simp only [backoffDelay]
  have hmz : (((min 4000 (300 * 2 ^ a) : ℤ)) : ℚ) = min (4000 : ℚ) (300 * 2 ^ a) := by
    push_cast
    rfl
  have hmpos : (0 : ℚ) ≤ min (4000 : ℚ) (300 * 2 ^ a) :=
    le_min (by norm_num) (by positivity)
  constructor
  · exact Int.floor_nonneg.mpr (mul_nonneg h0 (by linarith))
  · have hlt : r * (min (4000 : ℚ) (300 * 2 ^ a) + 1) < min (4000 : ℚ) (300 * 2 ^ a) + 1 := by
      have hpos : (0 : ℚ) < min (4000 : ℚ) (300 * 2 ^ a) + 1 := by linarith
      calc r * (min (4000 : ℚ) (300 * 2 ^ a) + 1)
          < 1 * (min (4000 : ℚ) (300 * 2 ^ a) + 1) := mul_lt_mul_of_pos_right h1 hpos
        _ = min (4000 : ℚ) (300 * 2 ^ a) + 1 := one_mul _
    have hfl : Int.floor (r * (min (4000 : ℚ) (300 * 2 ^ a) + 1))
        < (min 4000 (300 * 2 ^ a) : ℤ) + 1 := by
      rw [Int.floor_lt]
      push_cast
      push_cast at hlt
      exact hlt
    omega

/-! ### Concrete fixtures used by counterexamples and witnesses -/

/-- A zero random source (a legal value of `Math.random()`). -/
def rng0 : Nat → ℚ := fun _ => 0

def r200 : Resp :=
  { status := 200, statusText := "OK", headers := [], jsonResult := .ok .null, textBody := "hello" }

def r408 : Resp :=
  { status := 408, statusText := "Request Timeout", headers := [], jsonResult := .ok .null,
    textBody := "late" }

def r500 : Resp :=
  { status := 500, statusText := "Internal Server Error", headers := [], jsonResult := .ok .null,
    textBody := "boom" }

def r503 : Resp :=
  { status := 503, statusText := "Service Unavailable", headers := [], jsonResult := .ok .null,
    textBody := "down" }

/-- The rejection produced when the per-attempt timer aborts `fetch`. -/
def abortFault : JsError := { name := "AbortError" }

def clientDefault : HttpClient := HttpClient.ofOptions { baseUrl := "https://api.test" }

/-- A client configured WITHOUT 408 in its retry statuses and one retry. -/
def client408off : HttpClient :=
  { baseUrl := "https://api.test", defaultHeaders := [], retries := 1, retryStatuses := [],
    defaultTimeoutMs := 5000 }

/-- A client configured with the success status 200 as a retry status. -/
def client200retry : HttpClient :=
  { baseUrl := "https://api.test", defaultHeaders := [], retries := 1, retryStatuses := [200],
    defaultTimeoutMs := 5000 }

/-- Transport: a 408 exchange on attempt 0, then a 200 exchange. -/
def tr408then200 : Nat → AttemptOutcome :=
  fun a => if a == 0 then .response r408 else .response r200

/-- Transport: a 200 exchange on every attempt. -/
def tr200always : Nat → AttemptOutcome := fun _ => .response r200

/-- Transport: a 503 exchange on attempt 0, then a 200 exchange. -/
def tr503then200 : Nat → AttemptOutcome :=
  fun a => if a == 0 then .response r503 else .response r200

/-- Transport: every attempt is aborted by the timeout. -/
def trAbortAlways : Nat → AttemptOutcome := fun _ => .fault abortFault

/-! ### Reference-semantics view of construction (for the storage claim)

JavaScript assignment `this.defaultHeaders = defaultHeaders` (line 55)
stores a reference to the caller's object, while `new Set(retryStatuses)`
(line 57) copies.  To express this, header objects live in an explicit
heap of record objects addressed by `Nat`, and the constructed engine
keeps the address; the other fields are primitives or copies and are kept
as values. -/

abbrev Heap := Nat → HeadersRecord

/-- The caller's `HTTPClientOptions` with its header record given by
reference into the heap. -/
structure ClientConfigJS where
  baseUrl : String
  defaultHeaders : Nat
  retries : Int
  retryStatuses : List Nat
  defaultTimeoutMs : Nat

/-- The engine as constructed: primitives and the copied retry set by
value, the header record by reference. -/
structure HttpClientJS where
  baseUrl : String
  defaultHeadersRef : Nat
  retries : Int
  retryStatuses : List Nat
  defaultTimeoutMs : Nat

/-- The constructor under reference semantics (lines 47-59). -/
def constructJS (cfg : ClientConfigJS) : HttpClientJS :=
  { baseUrl := stripTrailingSlashes cfg.baseUrl
  , defaultHeadersRef := cfg.defaultHeaders
  , retries := cfg.retries
  , retryStatuses := cfg.retryStatuses
  , defaultTimeoutMs := cfg.defaultTimeoutMs }

/-- The engine a given heap makes effective: dereference the header
record.  Every per-request function reads the engine through this view. -/
def HttpClientJS.resolve (c : HttpClientJS) (h : Heap) : HttpClient :=
  { baseUrl := c.baseUrl
  , defaultHeaders := h c.defaultHeadersRef
  , retries := c.retries
  , retryStatuses := c.retryStatuses
  , defaultTimeoutMs := c.defaultTimeoutMs }

/-- A caller configuration whose header object lives at address 0. -/
def cfg0 : ClientConfigJS :=
  { baseUrl := "https://api.test/", defaultHeaders := 0, retries := 2,
    retryStatuses := [408, 429, 502, 503, 504], defaultTimeoutMs := 5000 }

/-- The heap before the caller mutates their header object. -/
def heapBefore : Heap := fun _ => [("x-tenant", "alpha")]

/-- The heap after the caller mutates their header object in place. -/
def heapAfter : Heap := fun _ => [("x-tenant", "beta")]

theorem maxAttemptsNat_pos (c : HttpClient) : 0 < c.maxAttemptsNat := by
  unfold HttpClient.maxAttemptsNat
  omega

/-! ### Claim theorems -/

/-- C3: whenever a bearer token is supplied for a call (a non-null,
non-empty token argument), the final header set maps `Authorization` to
`Bearer <token>`, overriding both the engine's default headers and any
per-call `Authorization` header, because the token step runs after the
defaults/per-call merge. -/
theorem bearer_token_wins (c : HttpClient) (init : RequestInitEx) (uuid t : String)
    (hsome : init.authToken = some t) (hne : t ≠ "") :
    headersGet (c.buildHeaders init uuid) "Authorization" = some ("Bearer " ++ t) := by
  have htruthy : truthyStr (some t) = true := by
    simp [truthyStr, hne]
  simp only [HttpClient.buildHeaders, hsome, htruthy, if_true, Option.getD_some]
  split <;> split <;>
    first
      | rw [headersGet_set_other _ "Content-Type" "application/json" "Authorization" (by decide),
          headersGet_set_self]
      | rw [headersGet_set_self]

/-- C3 witness: the default engine with an explicit per-call
`Authorization: Basic xyz` header and token `tok` ends with
`Authorization: Bearer tok`. -/
theorem bearer_token_wins_witness :
    ({ authToken := some "tok", headers := some [("Authorization", "Basic xyz")] }
        : RequestInitEx).authToken = some "tok" ∧
    "tok" ≠ "" ∧
    headersGet (clientDefault.buildHeaders
        { authToken := some "tok", headers := some [("Authorization", "Basic xyz")] } "u1")
        "Authorization" = some ("Bearer " ++ "tok") :=
  ⟨rfl, by decide, bearer_token_wins clientDefault _ "u1" "tok" rfl (by decide)⟩

/-- C7: in every run, the number of timers armed equals the number of
timers released equals the number of attempts started — the `finally`
block releases the per-attempt timer exactly once on every exit path
(return, terminal throw, status-retry continue, catch-retry continue), so
no timers leak. -/
theorem timers_released_once (c : HttpClient) (method path : String) (init : RequestInitEx)
    (tr : Nat → AttemptOutcome) (rng : Nat → ℚ) (uuid : String) :
    (c.request method path init tr rng uuid).1.timersSet
      = (c.request method path init tr rng uuid).1.timersCleared ∧
    (c.request method path init tr rng uuid).1.timersCleared
      = (c.request method path init tr rng uuid).1.attemptsStarted := by
  simp only [HttpClient.request]
  have h := requestLoop_timers c
    ⟨method, c.buildUrl path init.query, c.buildHeaders init uuid,
      init.json.map JsValue.stringify, init.cache⟩
    tr rng c.maxAttemptsNat c.maxAttemptsNat 0 none {} rfl rfl
  exact ⟨h.1, h.1 ▸ h.2⟩

/-- C8: every loop iteration ends in a return, a throw, or a continue to
the next attempt, and a continue implies attempts remain; since
`maxAttempts ≥ 1`, the generic post-loop fallback throw never executes,
for every configuration, transport and random source. -/
theorem fallback_unreachable (c : HttpClient) (method path : String) (init : RequestInitEx)
    (tr : Nat → AttemptOutcome) (rng : Nat → ℚ) (uuid : String) :
    (c.request method path init tr rng uuid).1.usedFallback = false := by
  simp only [HttpClient.request]
  rw [requestLoop_noFallback _ _ _ _ _ _ _ _ _ (Nat.sub_zero _).symm (maxAttemptsNat_pos c)]

/-- C10: the URL, the complete header set (with the synthesized request id)
and the serialized JSON body are computed once before the loop, and every
recorded `fetch` call of the run carries exactly those values — in
particular every retry of one logical call has the same `x-request-id`. -/
theorem fetch_args_stable (c : HttpClient) (method path : String) (init : RequestInitEx)
    (tr : Nat → AttemptOutcome) (rng : Nat → ℚ) (uuid : String) :
    ∀ fc ∈ (c.request method path init tr rng uuid).1.fetchCalls,
      fc.method = method ∧
      fc.url = c.buildUrl path init.query ∧
      fc.headers = c.buildHeaders init uuid ∧
      fc.body = init.json.map JsValue.stringify ∧
      headersGet fc.headers "x-request-id"
        = headersGet (c.buildHeaders init uuid) "x-request-id" := by
  intro fc hfc
  simp only [HttpClient.request] at hfc
  rcases requestLoop_fetchCalls_mem _ _ _ _ _ _ _ _ _ _ hfc with h | ⟨a, rfl⟩
  · exact absurd h (by simp)
  · exact ⟨rfl, rfl, rfl, rfl, rfl⟩

def fc0 : FetchCall := mkFetchCall 0 ⟨"GET", "https://api.test/x", [("x-request-id", "u")], none, none⟩

/-- C10 witness: a concrete run issues its first fetch with exactly the
precomputed URL, headers and body. -/
theorem fetch_args_stable_witness :
    fc0 ∈ (clientDefault.request "GET" "/x" {} tr200always rng0 "u").1.fetchCalls ∧
    fc0.method = "GET" ∧
    fc0.url = clientDefault.buildUrl "/x" none ∧
    fc0.headers = clientDefault.buildHeaders {} "u" ∧
    fc0.body = (none : Option JsValue).map JsValue.stringify ∧
    headersGet fc0.headers "x-request-id"
      = headersGet (clientDefault.buildHeaders {} "u") "x-request-id" := by
  have hmem : fc0 ∈ (clientDefault.request "GET" "/x" {} tr200always rng0 "u").1.fetchCalls :=
    List.Mem.head _
  have h := fetch_args_stable clientDefault "GET" "/x" {} tr200always rng0 "u" fc0 hmem
  exact ⟨hmem, h.1, h.2.1, h.2.2.1, h.2.2.2.1, h.2.2.2.2⟩

/-- C6: with a random source valued in `[0, 1)`, every backoff sleep
recorded for attempt index `a` lies in `[0, min(4000, 300 * 2^a)]`
milliseconds, inclusive. -/
theorem backoff_delay_in_range (c : HttpClient) (method path : String) (init : RequestInitEx)
    (tr : Nat → AttemptOutcome) (rng : Nat → ℚ) (uuid : String)
    (hrng : ∀ a, 0 ≤ rng a ∧ rng a < 1) :
    ∀ p ∈ (c.request method path init tr rng uuid).1.backoffs,
      0 ≤ p.2 ∧ p.2 ≤ min 4000 (300 * 2 ^ p.1) := by
  intro p hp
  simp only [HttpClient.request] at hp
  rcases requestLoop_backoffs_mem _ _ _ _ _ _ _ _ _ _ hp with h | h
  · exact absurd h (by simp)
  · rw [h]
    exact backoffDelay_bounds p.1 (rng p.1) (hrng p.1).1 (hrng p.1).2

/-- C6 witness: a run that retries a 503 once sleeps a delay within the
bounds for attempt index 0. -/
theorem backoff_delay_in_range_witness :
    (∀ a, 0 ≤ rng0 a ∧ rng0 a < 1) ∧
    (0, backoffDelay 0 (rng0 0))
        ∈ (clientDefault.request "GET" "/x" {} tr503then200 rng0 "u").1.backoffs ∧
    (0 ≤ (0, backoffDelay 0 (rng0 0)).2 ∧
      (0, backoffDelay 0 (rng0 0)).2 ≤ min 4000 (300 * 2 ^ (0, backoffDelay 0 (rng0 0)).1)) := by
  have hr : ∀ a, 0 ≤ rng0 a ∧ rng0 a < 1 := fun a => ⟨le_refl 0, by norm_num [rng0]⟩
  have hmem : (0, backoffDelay 0 (rng0 0))
      ∈ (clientDefault.request "GET" "/x" {} tr503then200 rng0 "u").1.backoffs :=
    List.Mem.head _
  exact ⟨hr, hmem,
    backoff_delay_in_range clientDefault "GET" "/x" {} tr503then200 rng0 "u" hr _ hmem⟩

/-- C5: for every call the engine performs at most `maxAttempts =
max(1, retries + 1)` attempts (hence at most `retries + 1` for a
non-negative retry budget); and when every attempt is rejected by the
per-attempt timeout abort, the call ends in a terminal thrown error —
the last abort fault, wrapped only if it is not an `Error` — after
exactly `maxAttempts` attempts, never in a success response. -/
theorem attempt_budget_timeout_terminal :
    (∀ (c : HttpClient) (method path : String) (init : RequestInitEx)
        (tr : Nat → AttemptOutcome) (rng : Nat → ℚ) (uuid : String),
      (c.request method path init tr rng uuid).1.attemptsStarted ≤ c.maxAttemptsNat) ∧
    (∀ (c : HttpClient) (method path : String) (init : RequestInitEx)
        (tr : Nat → AttemptOutcome) (rng : Nat → ℚ) (uuid : String),
      0 ≤ c.retries →
      ((c.request method path init tr rng uuid).1.attemptsStarted : ℤ) ≤ c.retries + 1) ∧
    (∀ (c : HttpClient) (method path : String) (init : RequestInitEx)
        (tr : Nat → AttemptOutcome) (rng : Nat → ℚ) (uuid : String) (ferr : Nat → JsError),
      (∀ a, a < c.maxAttemptsNat → tr a = .fault (ferr a)) →
      (∀ a, a < c.maxAttemptsNat → (ferr a).name = "AbortError") →
      (c.request method path init tr rng uuid).2
          = .thrown (wrapThrow (.js (ferr (c.maxAttemptsNat - 1)))) ∧
      (c.request method path init tr rng uuid).1.attemptsStarted = c.maxAttemptsNat) := by
  have hbound : ∀ (c : HttpClient) (method path : String) (init : RequestInitEx)
      (tr : Nat → AttemptOutcome) (rng : Nat → ℚ) (uuid : String),
      (c.request method path init tr rng uuid).1.attemptsStarted ≤ c.maxAttemptsNat := by
    intro c method path init tr rng uuid
    simp only [HttpClient.request]
    have h := requestLoop_attempts_le c
      ⟨method, c.buildUrl path init.query, c.buildHeaders init uuid,
        init.json.map JsValue.stringify, init.cache⟩
      tr rng c.maxAttemptsNat c.maxAttemptsNat 0 none {}
    simpa using h
  refine ⟨hbound, ?_, ?_⟩
  · intro c method path init tr rng uuid hr
    have h := hbound c method path init tr rng uuid
    unfold HttpClient.maxAttemptsNat at h
    omega
  · intro c method path init tr rng uuid ferr hfault hname
    have hmaxpos := maxAttemptsNat_pos c
    have hstepR : ∀ a, a < c.maxAttemptsNat - 1 →
        attemptStep c tr a c.maxAttemptsNat = .retryError (.js (ferr a)) := by
      intro a ha
      have hsre : shouldRetryError (.js (ferr a)) a c.maxAttemptsNat = true := by
        simp [shouldRetryError, Caught.name, hname a (by omega), ha]
      simp only [attemptStep, hfault a (by omega), catchStep, hsre, if_true]
    have hstepT : attemptStep c tr (c.maxAttemptsNat - 1) c.maxAttemptsNat
        = .thrw (wrapThrow (.js (ferr (c.maxAttemptsNat - 1)))) := by
      have hsre : shouldRetryError (.js (ferr (c.maxAttemptsNat - 1)))
          (c.maxAttemptsNat - 1) c.maxAttemptsNat = false := by
        simp [shouldRetryError]
      simp only [attemptStep, hfault (c.maxAttemptsNat - 1) (by omega), catchStep, hsre,
        Bool.false_eq_true, if_false]
    simp only [HttpClient.request]
    have h := requestLoop_all_retry_throw c
      ⟨method, c.buildUrl path init.query, c.buildHeaders init uuid,
        init.json.map JsValue.stringify, init.cache⟩
      tr rng c.maxAttemptsNat (wrapThrow (.js (ferr (c.maxAttemptsNat - 1))))
      c.maxAttemptsNat 0 (Nat.sub_zero _).symm hmaxpos
      (fun a ha1 ha2 => by rw [hstepR a ha2]; trivial) hstepT none {}
    refine ⟨h.1, ?_⟩
    rw [h.2]
    simp

/-- C5 witness: the default engine (retries = 2) against an
always-aborting transport performs exactly 3 attempts and throws the
abort fault. -/
theorem attempt_budget_timeout_terminal_witness :
    (0 : ℤ) ≤ clientDefault.retries ∧
    ((clientDefault.request "GET" "/x" {} trAbortAlways rng0 "u").1.attemptsStarted : ℤ)
        ≤ clientDefault.retries + 1 ∧
    (clientDefault.request "GET" "/x" {} trAbortAlways rng0 "u").2
        = .thrown (wrapThrow (.js abortFault)) ∧
    (clientDefault.request "GET" "/x" {} trAbortAlways rng0 "u").1.attemptsStarted
        = clientDefault.maxAttemptsNat := by
  refine ⟨by decide, ?_, ?_, ?_⟩
  · exact attempt_budget_timeout_terminal.2.1 clientDefault "GET" "/x" {} trAbortAlways rng0 "u"
      (by decide)
  · exact (attempt_budget_timeout_terminal.2.2 clientDefault "GET" "/x" {} trAbortAlways rng0 "u"
      (fun _ => abortFault) (fun a _ => rfl) (fun a _ => rfl)).1
  · exact (attempt_budget_timeout_terminal.2.2 clientDefault "GET" "/x" {} trAbortAlways rng0 "u"
      (fun _ => abortFault) (fun a _ => rfl) (fun a _ => rfl)).2

def tr503always : Nat → AttemptOutcome := fun _ => .response r503

/-- C4 counterexample: with `retryStatuses = {200}` and two attempts, a
transport answering 200 on every attempt makes the claim's premise true
("a status in retryStatuses on every attempt") yet the call ends in a
SUCCESS response on the last attempt, not a terminal HTTP-status error. -/
theorem retry_precedes_ok_check_counterexample :
    client200retry.retryStatuses.contains r200.status = true ∧
    tr200always 0 = .response r200 ∧
    tr200always 1 = .response r200 ∧
    (client200retry.request "GET" "/x" {} tr200always rng0 "u").2
        = .success ⟨.str "hello", 200, []⟩ ∧
    (client200retry.request "GET" "/x" {} tr200always rng0 "u").1.attemptsStarted = 2 :=
  ⟨rfl, rfl, rfl, rfl, rfl⟩

/-- C4 (amended): retry-eligibility is checked before the ok check — a
status in `retryStatuses` retries while attempts remain even if it is a
success status; and if the transport answers, on every attempt, a
completed parseable exchange whose status is in `retryStatuses` AND is
not ok, the call ends in a terminal HTTP-status error carrying that
status after exactly `maxAttempts` attempts. -/
theorem retry_precedes_ok_check :
    (∀ (c : HttpClient) (status a m : Nat),
      c.retryStatuses.contains status = true → a < m - 1 →
      c.shouldRetry status a m = true) ∧
    (∀ (c : HttpClient) (method path : String) (init : RequestInitEx)
        (tr : Nat → AttemptOutcome) (rng : Nat → ℚ) (uuid : String)
        (R : Nat → Resp) (D : Nat → JsValue) (s : Nat),
      (∀ a, a < c.maxAttemptsNat → tr a = .response (R a)) →
      (∀ a, a < c.maxAttemptsNat → (R a).status = s) →
      c.retryStatuses.contains s = true →
      (∀ a, a < c.maxAttemptsNat → parseResponse (R a) = .ok (D a)) →
      (s < 200 ∨ 299 < s) →
      (c.request method path init tr rng uuid).2
          = .thrown (.http (httpStatusError (R (c.maxAttemptsNat - 1))
              (D (c.maxAttemptsNat - 1)))) ∧
      (httpStatusError (R (c.maxAttemptsNat - 1)) (D (c.maxAttemptsNat - 1))).status = some s ∧
      (c.request method path init tr rng uuid).1.attemptsStarted = c.maxAttemptsNat) := by
  have hpart1 : ∀ (c : HttpClient) (status a m : Nat),
      c.retryStatuses.contains status = true → a < m - 1 →
      c.shouldRetry status a m = true := by
    intro c status a m hc ha
    unfold HttpClient.shouldRetry
    rw [hc]
    simp [ha]
  refine ⟨hpart1, ?_⟩
  intro c method path init tr rng uuid R D s hresp hstat hcont hparse hnotok
  have hmaxpos := maxAttemptsNat_pos c
  have hstepR : ∀ a, a < c.maxAttemptsNat - 1 →
      attemptStep c tr a c.maxAttemptsNat = .retryStatus := by
    intro a ha
    have hsr : c.shouldRetry (R a).status a c.maxAttemptsNat = true := by
      rw [hstat a (by omega)]
      exact hpart1 c s a c.maxAttemptsNat hcont ha
    simp only [attemptStep, hresp a (by omega), hsr, if_true]
  have hok : (R (c.maxAttemptsNat - 1)).ok = false := by
    unfold Resp.ok
    rw [hstat (c.maxAttemptsNat - 1) (by omega)]
    rcases hnotok with h | h <;> simp <;> omega
  have hstepT : attemptStep c tr (c.maxAttemptsNat - 1) c.maxAttemptsNat
      = .thrw (.http (httpStatusError (R (c.maxAttemptsNat - 1))
          (D (c.maxAttemptsNat - 1)))) := by
    have hsr : c.shouldRetry (R (c.maxAttemptsNat - 1)).status (c.maxAttemptsNat - 1)
        c.maxAttemptsNat = false := by
      simp [HttpClient.shouldRetry]
    have hsre : shouldRetryError
        (.http (httpStatusError (R (c.maxAttemptsNat - 1)) (D (c.maxAttemptsNat - 1))))
        (c.maxAttemptsNat - 1) c.maxAttemptsNat = false := by
      simp [shouldRetryError]
    simp only [attemptStep, hresp (c.maxAttemptsNat - 1) (by omega), hsr, Bool.false_eq_true,
      if_false, hparse (c.maxAttemptsNat - 1) (by omega), hok, Bool.not_false, if_true,
      catchStep, hsre, wrapThrow, Caught.instanceOfError]
  simp only [HttpClient.request]
  have h := requestLoop_all_retry_throw c
    ⟨method, c.buildUrl path init.query, c.buildHeaders init uuid,
      init.json.map JsValue.stringify, init.cache⟩
    tr rng c.maxAttemptsNat
    (.http (httpStatusError (R (c.maxAttemptsNat - 1)) (D (c.maxAttemptsNat - 1))))
    c.maxAttemptsNat 0 (Nat.sub_zero _).symm hmaxpos
    (fun a ha1 ha2 => by rw [hstepR a ha2]; trivial) hstepT none {}
  refine ⟨h.1, ?_, ?_⟩
  · simp [httpStatusError, hstat (c.maxAttemptsNat - 1) (by omega)]
  · rw [h.2]
    simp

/-- C4 witness: the default engine against an always-503 transport makes
3 attempts and throws the HTTP 503 error. -/
theorem retry_precedes_ok_check_witness :
    clientDefault.shouldRetry 503 0 3 = true ∧
    clientDefault.retryStatuses.contains 503 = true ∧
    (503 < 200 ∨ 299 < 503) ∧
    (clientDefault.request "GET" "/x" {} tr503always rng0 "u").2
        = .thrown (.http (httpStatusError r503 (.str "down"))) ∧
    (clientDefault.request "GET" "/x" {} tr503always rng0 "u").1.attemptsStarted
        = clientDefault.maxAttemptsNat := by
  have h := retry_precedes_ok_check.2 clientDefault "GET" "/x" {} tr503always rng0 "u"
    (fun _ => r503) (fun _ => .str "down") 503 (fun a _ => rfl) (fun a _ => rfl) (by decide)
    (fun a _ => rfl) (by omega)
  exact ⟨retry_precedes_ok_check.1 clientDefault 503 0 3 (by decide) (by omega),
    by decide, by omega, h.1, h.2.2⟩

def tr500always : Nat → AttemptOutcome := fun _ => .response r500

/-- C1 counterexample: with 408 removed from `retryStatuses` and one
retry, a completed 408 exchange raises an `HTTPError` (status 408, not
ok), yet the catch block classifies it as retryable (the
`status === 408` abort heuristic applies to the engine's own error) and
the call retries and even SUCCEEDS on attempt 1 — the raised error was
neither terminal nor propagated. -/
theorem http_error_terminal_counterexample :
    client408off.retryStatuses.contains 408 = false ∧
    tr408then200 0 = .response r408 ∧
    r408.ok = false ∧
    attemptStep client408off tr408then200 0 2
        = .retryError (.http (httpStatusError r408 (.str "late"))) ∧
    (client408off.request "GET" "/x" {} tr408then200 rng0 "u").2
        = .success ⟨.str "hello", 200, []⟩ ∧
    (client408off.request "GET" "/x" {} tr408then200 rng0 "u").1.attemptsStarted = 2 :=
  ⟨rfl, rfl, rfl, rfl, rfl, rfl⟩

/-- C1 (amended): an `HTTPError` raised for a completed non-ok exchange
is terminal and propagated unchanged, UNLESS its status is 408 and
attempts remain: (1) when the status is not 408, the loop throws exactly
that error from the attempt that raised it; (2) when the status is 408
and the attempt is not the last, the iteration retries the caught
`HTTPError` instead. -/
theorem http_error_terminal_unless_408 :
    (∀ (c : HttpClient) (args : FetchArgs) (tr : Nat → AttemptOutcome) (rng : Nat → ℚ)
        (maxAttempts fuel attempt : Nat) (lastError : Option Caught) (st : RunState)
        (r : Resp) (d : JsValue),
      fuel = maxAttempts - attempt → attempt < maxAttempts →
      tr attempt = .response r →
      c.shouldRetry r.status attempt maxAttempts = false →
      parseResponse r = .ok d →
      r.ok = false →
      r.status ≠ 408 →
      (requestLoop c args tr rng maxAttempts fuel attempt lastError st).2
        = .thrown (.http (httpStatusError r d))) ∧
    (∀ (c : HttpClient) (tr : Nat → AttemptOutcome) (attempt maxAttempts : Nat) (r : Resp)
        (d : JsValue),
      tr attempt = .response r →
      c.shouldRetry r.status attempt maxAttempts = false →
      parseResponse r = .ok d →
      r.ok = false →
      r.status = 408 →
      attempt < maxAttempts - 1 →
      attemptStep c tr attempt maxAttempts
        = .retryError (.http (httpStatusError r d))) := by
  constructor
  · intro c args tr rng maxAttempts fuel attempt lastError st r d hfuel hlt htr hsr hparse hok hne
    have hstep : attemptStep c tr attempt maxAttempts
        = catchStep (.http (httpStatusError r d)) attempt maxAttempts := by
      simp only [attemptStep, htr, hsr, Bool.false_eq_true, if_false, hparse, hok,
        Bool.not_false, if_true]
    have hsre : shouldRetryError (.http (httpStatusError r d)) attempt maxAttempts = false := by
      simp [shouldRetryError, Caught.name, Caught.status, httpStatusError, isNetworkError,
        Caught.isTypeError, hne]
    have hstep2 : attemptStep c tr attempt maxAttempts
        = .thrw (.http (httpStatusError r d)) := by
      rw [hstep]
      simp only [catchStep, hsre, Bool.false_eq_true, if_false, wrapThrow,
        Caught.instanceOfError, if_true]
    cases fuel with
    | zero => omega
    | succ n =>
      simp only [requestLoop, if_pos hlt, hstep2]
  · intro c tr attempt maxAttempts r d htr hsr hparse hok h408 hlt2
    have hsre : shouldRetryError (.http (httpStatusError r d)) attempt maxAttempts = true := by
      simp [shouldRetryError, Caught.name, Caught.status, httpStatusError, h408, hlt2]
    simp only [attemptStep, htr, hsr, Bool.false_eq_true, if_false, hparse, hok,
      Bool.not_false, if_true, catchStep, hsre, if_true]

/-- C1 witness: both amended branches at concrete inputs, a terminal
HTTP 500 on the last attempt and a retried HTTP 408 on a non-final
attempt. -/
theorem http_error_terminal_unless_408_witness :
    (1 = 3 - 2 ∧ 2 < 3 ∧ tr500always 2 = .response r500 ∧
      clientDefault.shouldRetry r500.status 2 3 = false ∧
      parseResponse r500 = .ok (.str "boom") ∧ r500.ok = false ∧ r500.status ≠ 408 ∧
      (requestLoop clientDefault ⟨"GET", "u", [], none, none⟩ tr500always rng0 3 1 2
          none {}).2 = .thrown (.http (httpStatusError r500 (.str "boom")))) ∧
    (tr408then200 0 = .response r408 ∧ client408off.shouldRetry r408.status 0 2 = false ∧
      parseResponse r408 = .ok (.str "late") ∧ r408.ok = false ∧ r408.status = 408 ∧ 0 < 2 - 1 ∧
      attemptStep client408off tr408then200 0 2
        = .retryError (.http (httpStatusError r408 (.str "late")))) := by
  constructor
  · exact ⟨rfl, by omega, rfl, by decide, rfl, rfl, by decide,
      http_error_terminal_unless_408.1 clientDefault ⟨"GET", "u", [], none, none⟩ tr500always
        rng0 3 1 2 none {} r500 (.str "boom") rfl (by omega) rfl (by decide) rfl rfl (by decide)⟩
  · exact ⟨rfl, by decide, rfl, rfl, rfl, by omega,
      http_error_terminal_unless_408.2 client408off tr408then200 0 2 r408 (.str "late")
        rfl (by decide) rfl rfl rfl (by omega)⟩

/-- C2 counterexample: the constructor stores the caller's header object
by reference (`this.defaultHeaders = defaultHeaders`), so mutating that
object after construction changes the engine's effective default headers
and the headers it builds per call — the header map is NOT stored by
value. -/
theorem construction_by_value_counterexample :
    ((constructJS cfg0).resolve heapAfter).defaultHeaders
        ≠ ((constructJS cfg0).resolve heapBefore).defaultHeaders ∧
    ((constructJS cfg0).resolve heapAfter).buildHeaders {} "u"
        ≠ ((constructJS cfg0).resolve heapBefore).buildHeaders {} "u" := by
  constructor <;> decide

/-- C2 (amended): construction strips trailing slashes from `baseUrl`
and stores the numeric policies and the retry-status set by value (they
are identical under every heap), but keeps the caller's header object by
reference: the engine's effective default headers are whatever the heap
currently holds at the stored address.  Per-request execution itself
never writes an engine field (every request function is a pure reader of
the engine). -/
theorem construction_storage_semantics (cfg : ClientConfigJS) (h h2 : Heap) :
    ((constructJS cfg).resolve h).baseUrl = stripTrailingSlashes cfg.baseUrl ∧
    ((constructJS cfg).resolve h).retries = cfg.retries ∧
    ((constructJS cfg).resolve h).retryStatuses = cfg.retryStatuses ∧
    ((constructJS cfg).resolve h).defaultTimeoutMs = cfg.defaultTimeoutMs ∧
    ((constructJS cfg).resolve h).baseUrl = ((constructJS cfg).resolve h2).baseUrl ∧
    ((constructJS cfg).resolve h).retries = ((constructJS cfg).resolve h2).retries ∧
    ((constructJS cfg).resolve h).retryStatuses
        = ((constructJS cfg).resolve h2).retryStatuses ∧
    ((constructJS cfg).resolve h).defaultTimeoutMs
        = ((constructJS cfg).resolve h2).defaultTimeoutMs ∧
    ((constructJS cfg).resolve h).defaultHeaders = h cfg.defaultHeaders :=
  ⟨rfl, rfl, rfl, rfl, rfl, rfl, rfl, rfl, rfl⟩

theorem queryPairs_filter :
    ∀ (q : List (String × Option QueryVal)) (acc : List (String × String)),
      (q.filter (fun kv => kv.2.isSome)).foldl
        (fun acc kv => match kv.2 with
          | some v => acc ++ [(kv.1, v.toStr)]
          | none => acc) acc
      = q.foldl
        (fun acc kv => match kv.2 with
          | some v => acc ++ [(kv.1, v.toStr)]
          | none => acc) acc := by
  intro q
  induction q with
  | nil => intro acc; rfl
  | cons kv t ih =>
    intro acc
    rcases kv with ⟨k, v⟩
    cases v with
    | some w => simp [List.filter_cons, ih]
    | none => simp [List.filter_cons, ih]

/-- C9: URL construction appends the path to the normalized base with
exactly one separating slash, omits query keys whose value is undefined,
serializes defined values by plain string conversion, and on the spec's
example yields exactly `https://x.test/foo?a=1`. -/
theorem buildUrl_construction :
    ((HttpClient.ofOptions { baseUrl := "https://x.test/" }).buildUrl "/foo"
        (some [("a", some (.n 1)), ("b", none)]) = "https://x.test/foo?a=1") ∧
    (∀ (c : HttpClient) (path : String), strStartsWith path "/" = false →
        c.buildUrl path none = c.baseUrl ++ "/" ++ path) ∧
    (∀ (c : HttpClient) (path : String), strStartsWith path "/" = true →
        c.buildUrl path none = c.baseUrl ++ path) ∧
    (∀ (c : HttpClient) (path : String) (q : List (String × Option QueryVal)),
        c.buildUrl path (some (q.filter (fun kv => kv.2.isSome)))
          = c.buildUrl path (some q)) := by
  refine ⟨rfl, ?_, ?_, ?_⟩
  · intro c path h
    simp [HttpClient.buildUrl, h, String.append_assoc]
  · intro c path h
    simp [HttpClient.buildUrl, h]
  · intro c path q
    simp only [HttpClient.buildUrl]
    rw [queryPairs_filter]

/-- C9 witness: the slash-insertion branch at a concrete relative path. -/
theorem buildUrl_construction_witness :
    strStartsWith "foo" "/" = false ∧
    clientDefault.buildUrl "foo" none = clientDefault.baseUrl ++ "/" ++ "foo" :=
  ⟨rfl, buildUrl_construction.2.1 clientDefault "foo" rfl⟩
